import Mathlib

/-!
Verification development for the network_analysis repository.

The repository has two Python source files:
* src/string_db.py : downloads STRING-DB dump files, classifies them by
  header, parses them and inserts rows into a three-table sqlite store
  (proteins, pp_links, p_aliases).
* src/analysis.py : resolves gene symbols to identifiers through the
  p_aliases table, builds a direct and a one-hop-expanded interaction
  graph from pp_links rows above a score threshold, and computes and
  exports network metrics.

The embedding below translates the relevant functions into executable
Lean definitions.  Python strings are modelled as Lean strings, with the
character-level operations (split, strip, replace, int conversion)
reimplemented over character lists by structural recursion so that every
definition evaluates inside the kernel.  Fallible Python code (unpacking,
indexing, int conversion, raised exceptions) is modelled with Except.
-/

deriving instance DecidableEq for Except

namespace NetworkAnalysis

/-! ## Python string primitives -/

/-- Splitting of a character list at every character satisfying a
predicate, keeping empty fields.  With the predicate equality-to-sep this
is Python str.split(sep) for a one-character separator. -/
def splitPred (p : Char → Bool) : List Char → List (List Char)
  | [] => [[]]
  | c :: rest =>
    let r := splitPred p rest
    if p c then [] :: r
    else
      match r with
      | [] => [[c]]
      | h :: t => (c :: h) :: t

/-- Python str.split(sep) for a one-character separator. -/
def splitSep (sep : Char) : List Char → List (List Char) :=
  splitPred (fun c => c = sep)

/-- String-valued wrapper of splitSep, mirroring Python str.split(sep). -/
def pySplitStr (sep : Char) (s : String) : List String :=
  (splitSep sep s.data).map (fun l => ⟨l⟩)

/-- Python str.split() with no argument: splits on whitespace and drops
the empty fields that arise at the ends and between consecutive
whitespace characters, so the result is the list of maximal
whitespace-free runs. -/
def pySplitWs (s : String) : List String :=
  ((splitPred Char.isWhitespace s.data).filter (fun l => l ≠ [])).map
    (fun l => (⟨l⟩ : String))

/-- Python str.strip() with no argument: removes leading and trailing
whitespace characters. -/
def pyStrip (s : String) : List Char :=
  (((s.data.dropWhile Char.isWhitespace).reverse.dropWhile Char.isWhitespace).reverse)

/-- Value of a nonempty all-digit character list, none otherwise. -/
def digitsVal : List Char → Option Nat
  | l =>
    if l ≠ [] ∧ l.all Char.isDigit then
      some (l.foldl (fun n c => 10 * n + (c.toNat - 48)) 0)
    else
      none

/-- Python int(string): strips surrounding whitespace, accepts an optional
sign followed by digits, and raises ValueError otherwise.  (Underscore
digit separators, accepted by Python, are not modelled; no input in this
development contains them.) -/
def pyInt (s : String) : Except String Int :=
  match pyStrip s with
  | '-' :: rest =>
    match digitsVal rest with
    | some n => .ok (-(n : Int))
    | none => .error "ValueError"
  | '+' :: rest =>
    match digitsVal rest with
    | some n => .ok (n : Int)
    | none => .error "ValueError"
  | l =>
    match digitsVal l with
    | some n => .ok (n : Int)
    | none => .error "ValueError"

/-- Python list indexing lst[i], raising IndexError when out of range. -/
def getIdx (l : List String) (i : Nat) : Except String String :=
  match l.get? i with
  | some v => .ok v
  | none => .error "IndexError"

/-- Bind on Except applied to a success reduces to the continuation. -/
@[simp] theorem except_bind_ok {ε α β : Type} (a : α) (f : α → Except ε β) :
    (Except.ok a : Except ε α) >>= f = f a := rfl

/-- Bind on Except applied to a failure propagates the failure. -/
@[simp] theorem except_bind_error {ε α β : Type} (e : ε) (f : α → Except ε β) :
    (Except.error e : Except ε α) >>= f = .error e := rfl

/-- Fold over a list with a fallible step, stopping at the first error:
the shape of a Python for loop whose body may raise. -/
def foldlExcept {σ α : Type} (f : σ → α → Except String σ) : σ → List α → Except String σ
  | s, [] => .ok s
  | s, a :: l => do
    let s2 ← f s a
    foldlExcept f s2 l

/-- Map over a list with a fallible step, stopping at the first error:
the shape of a Python for loop that appends one result per element. -/
def mapExcept {α β : Type} (f : α → Except String β) : List α → Except String (List β)
  | [] => .ok []
  | a :: l => do
    let b ← f a
    let r ← mapExcept f l
    .ok (b :: r)

/-- header.replace of the comment marker, two hash signs and a space,
with the empty string: removes every occurrence, scanning left to right
exactly as Python str.replace does. -/
def dropMarker : List Char → List Char
  | '#' :: '#' :: ' ' :: rest => dropMarker rest
  | c :: rest => c :: dropMarker rest
  | [] => []

/-- re.split of one-or-more tab runs: like splitting on single tabs, but
the empty fields produced between consecutive tabs are dropped, while an
empty field at either end of the line is kept. -/
def reSplitTabs (s : String) : List String :=
  match splitSep '\t' s.data with
  | [] => []
  | [a] => [⟨a⟩]
  | a :: b :: rest =>
    let tail := b :: rest
    (⟨a⟩ : String) ::
      ((tail.dropLast.filter (fun l => l ≠ [])).map (fun l => (⟨l⟩ : String)) ++
        [(⟨tail.getLast (List.cons_ne_nil b rest)⟩ : String)])

/-! ## src/string_db.py : header classification -/

/-- Column names expected for a PPI links file (string_db.py line 42). -/
def pp_links_header : List String := ["protein1", "protein2", "combined_score"]

/-- Column names expected for a protein aliases file (string_db.py line 43). -/
def p_aliases_header : List String := ["string_protein_id", "alias", "source"]

/-- Tokens of a raw header line: the comment marker is removed and the
result is split on whitespace (string_db.py line 46).  Splitting with no
argument drops empty fields. -/
def headerTokens (header : String) : List String :=
  ((splitPred Char.isWhitespace (dropMarker header.data)).filter (fun l => l ≠ [])).map
    (fun l => (⟨l⟩ : String))

/-- contains_ppi_links of string_db.py lines 40 to 53: ok true when the
token set contains all PPI-links column names, otherwise ok false when it
contains all alias column names, otherwise a parse error. -/
def contains_ppi_links (header : String) : Except String Bool :=
  if pp_links_header.all (fun t => t ∈ headerTokens header) then .ok true
  else if p_aliases_header.all (fun t => t ∈ headerTokens header) then .ok false
  else .error "Parse error: unexpected file header."

/-! ## src/string_db.py : line parsing and loading -/

/-- Row of the pp_links table (ensembl_id_1, ensembl_id_2, combined_score). -/
structure PPLink where
  ensembl_id_1 : String
  ensembl_id_2 : String
  combined_score : Int
deriving DecidableEq, Repr

/-- Row of the proteins table (ensembl_id, species). -/
structure ProteinRow where
  ensembl_id : String
  species : String
deriving DecidableEq, Repr

/-- Row of the p_aliases table (ensembl_id, alias, sources).  The source
column is called alias; that word is a Lean keyword, so the field is
named aliasName here. -/
structure AliasRow where
  ensembl_id : String
  aliasName : String
  sources : String
deriving DecidableEq, Repr

/-- Python two-variable unpacking of s.split of a dot: succeeds exactly
when the string has exactly one dot, returning the two parts, and raises
ValueError otherwise. -/
def splitDotPair (s : String) : Except String (String × String) :=
  match splitSep '.' s.data with
  | [a, b] => .ok ((⟨a⟩ : String), (⟨b⟩ : String))
  | _ => .error "ValueError"

/-- Loader state while reading a PPI links file: the accumulated set of
first-column prefixed identifiers (a Python set, modelled as a duplicate
free list in insertion order) and the pp_links rows inserted so far. -/
structure LinkState where
  proteins : List String
  pp_links : List PPLink
deriving DecidableEq, Repr

/-- Insertion into a Python set, modelled on duplicate-free lists. -/
def addToSet {α : Type} [DecidableEq α] (l : List α) (x : α) : List α :=
  if x ∈ l then l else l ++ [x]

/-- One iteration of the PPI-links loop of string_db.py lines 92 to 103:
the line is split on single spaces, records[0] is added to the proteins
set, both identifier columns are split on the dot, column 9 is converted
to an integer, and one pp_links row is inserted. -/
def loadLinkLine (st : LinkState) (line : String) : Except String LinkState := do
  let records := pySplitStr ' ' line
  let r0 := records.headD ""
  let proteins := addToSet st.proteins r0
  let p1 ← splitDotPair r0
  let r1 ← getIdx records 1
  let p2 ← splitDotPair r1
  let s9 ← getIdx records 9
  let combined_score ← pyInt s9
  .ok ⟨proteins, st.pp_links ++ [⟨p1.2, p2.2, combined_score⟩]⟩

/-- Branch (a) of import_txtgz, string_db.py lines 90 to 111: loads every
data line of a PPI links file, then inserts one proteins row per element
of the accumulated identifier set, splitting it into species and id. -/
def importLinks (lines : List String) : Except String (List PPLink × List ProteinRow) := do
  let st ← foldlExcept loadLinkLine (⟨[], []⟩ : LinkState) lines
  let prows ← mapExcept (fun p => do
    let sp ← splitDotPair p
    .ok (⟨sp.2, sp.1⟩ : ProteinRow)) st.proteins
  .ok (st.pp_links, prows)

/-- One iteration of the aliases loop of string_db.py lines 115 to 123:
the line is split on tab runs, records[0] is split on the dot keeping the
id part, and records[1:3] are unpacked as alias and sources. -/
def loadAliasLine (line : String) : Except String AliasRow := do
  let records := reSplitTabs line
  let p ← splitDotPair (records.headD "")
  let al ← getIdx records 1
  let sources ← getIdx records 2
  .ok ⟨p.2, al, sources⟩

/-- Branch (b) of import_txtgz, string_db.py lines 113 to 123: loads every
data line of an aliases file as one p_aliases row. -/
def importAliases (lines : List String) : Except String (List AliasRow) :=
  mapExcept loadAliasLine lines

/-! ## src/string_db.py : filenames, URLs and the DB builder -/

/-- The two base filename patterns of string_db.py lines 17 and 18; the
links file comes first, the aliases file second. -/
def base_fns : List String :=
  ["protein.links.detailed.v11.0.txt.gz", "protein.aliases.v11.0.txt.gz"]

/-- Fixed download base URL of string_db.py line 19. -/
def base_url : String := "https://stringdb-static.org/download/"

/-- Dot-joining of a list of strings, mirroring the join method. -/
def intercalateDot : List String → String
  | [] => ""
  | [a] => a
  | a :: b :: rest => a ++ "." ++ intercalateDot (b :: rest)

/-- Dot-joining with empty components removed first, mirroring the
join of filter None at string_db.py line 66. -/
def joinDotNonEmpty (parts : List String) : String :=
  intercalateDot (parts.filter (fun p => p ≠ ""))

/-- is_str_number of string_db.py lines 23 to 28: whether int(string)
succeeds. -/
def is_str_number (s : String) : Bool :=
  (pyInt s).isOk

/-- Filename list computed by string_db.py lines 59 to 66: a falsy
species list is replaced by a list holding the empty string, and for
every species code the two base filenames are joined onto it in order. -/
def txtgz_fns (ncbi_taxonomy_ids : List String) : List String :=
  let ids := if ncbi_taxonomy_ids.isEmpty then [""] else ncbi_taxonomy_ids
  ids.foldl (fun acc each => acc ++ base_fns.map (fun x => joinDotNonEmpty [each, x])) []

/-- Download URL resolution of string_db.py lines 76 to 79: when the
first dot-component of the filename is numeric, the filename minus its
first and last two dot-components is inserted as a sub-path, otherwise
the filename is appended to the base URL directly. -/
def download_url (fn : String) : String :=
  base_url ++
    (if is_str_number ((pySplitStr '.' fn).headD "") then
      intercalateDot (((pySplitStr '.' fn).drop 1).dropLast.dropLast) ++ "/"
    else "") ++ fn

/-- The three-table store (proteins, pp_links, p_aliases), each table a
row list in insertion order. -/
structure StoreDB where
  proteins : List ProteinRow
  pp_links : List PPLink
  p_aliases : List AliasRow
deriving Repr

/-- State the builder acts on: the data files present on disk (filename
and decompressed line list, header line first), whether the store file
exists, the store contents, the remote server (URL to line list), and
the log of performed downloads. -/
structure World where
  dataFiles : List (String × List String)
  storeExists : Bool
  store : StoreDB
  remote : String → List String
  downloadLog : List String

/-- Fetch step of string_db.py lines 75 to 83: when the destination does
not exist the file is downloaded from its resolved URL, otherwise
nothing happens. -/
def fetchIfAbsent (w : World) (fn : String) : World :=
  if fn ∈ w.dataFiles.map Prod.fst then w
  else
    { w with
      dataFiles := w.dataFiles ++ [(fn, w.remote (download_url fn))],
      downloadLog := w.downloadLog ++ [download_url fn] }

/-- Lines of a data file on disk (empty when absent; after fetchIfAbsent
the file is always present). -/
def lookupFile (w : World) (fn : String) : List String :=
  match w.dataFiles.find? (fun p => p.1 = fn) with
  | some p => p.2
  | none => []

/-- Import of one opened file, string_db.py lines 86 to 123: the header
line is consumed and classified, then the remaining lines are loaded
into the table the classification selects.  Reading the header of an
empty file yields the empty string, which fails classification. -/
def importFile (st : StoreDB) (lines : List String) : Except String StoreDB := do
  let hdr := lines.headD ""
  let isLinks ← contains_ppi_links hdr
  if isLinks then
    let r ← importLinks lines.tail
    .ok { st with pp_links := st.pp_links ++ r.1, proteins := st.proteins ++ r.2 }
  else
    let r ← importAliases lines.tail
    .ok { st with p_aliases := st.p_aliases ++ r }

/-- Body of the loop of import_txtgz over filenames, string_db.py lines
71 to 123: fetch the file when absent, then import its contents into the
store. -/
def importStep (w : World) (fn : String) : Except String World := do
  let st ← importFile (fetchIfAbsent w fn).store (lookupFile (fetchIfAbsent w fn) fn)
  .ok { fetchIfAbsent w fn with store := st }

/-- import_txtgz of string_db.py lines 58 to 123: for every computed
filename, fetch it when absent and import its contents into the store. -/
def import_txtgz (w : World) (ncbi_taxonomy_ids : List String) : Except String World :=
  foldlExcept importStep w (txtgz_fns ncbi_taxonomy_ids)

/-- sqlite_create_tables of string_db.py lines 129 to 157: CREATE TABLE
IF NOT EXISTS statements only; the row contents modelled here are
unchanged. -/
def sqlite_create_tables (st : StoreDB) : StoreDB := st

/-- create_string_db of string_db.py lines 162 to 178: when the store
file already exists the function returns at once; otherwise connecting
creates the (empty) store file, the tables are created and the data is
imported.  The code checks existence of the store next to the script and
connects by its bare name; the two coincide when the program is run from
the script directory, as analysis.py does, and are modelled as the one
storeExists flag here. -/
def create_string_db (w : World) (ncbi_taxonomy_ids : List String) : Except String World :=
  if w.storeExists then .ok w
  else
    let w := { w with storeExists := true, store := sqlite_create_tables ⟨[], [], []⟩ }
    import_txtgz w ncbi_taxonomy_ids

/-! ## src/analysis.py : gene resolution and network construction -/

/-- Whitespace-trimming of the input gene symbols, analysis.py line 84. -/
def strip_genes (genes : List String) : List String :=
  genes.map (fun g => (⟨pyStrip g⟩ : String))

/-- The sql_get_ids query of analysis.py lines 89 to 96: every p_aliases
row whose alias is among the given symbols contributes its ensembl_id,
in table order. -/
def sql_get_ids (p_aliases : List AliasRow) (genes : List String) : List String :=
  (p_aliases.filter (fun r => r.aliasName ∈ genes)).map (fun r => r.ensembl_id)

/-- Gene resolution as performed at analysis.py lines 84 to 96: symbols
are trimmed, then looked up in the p_aliases table. -/
def resolve_gene_ids (p_aliases : List AliasRow) (genes : List String) : List String :=
  sql_get_ids p_aliases (strip_genes genes)

/-- The sql_get_ppi_1 query of analysis.py lines 99 to 108: pp_links
rows with both endpoints among the resolved ids and score above 400. -/
def sql_get_ppi_1 (pp_links : List PPLink) (gene_ids : List String) : List (String × String) :=
  (pp_links.filter (fun r =>
      r.ensembl_id_1 ∈ gene_ids ∧ r.ensembl_id_2 ∈ gene_ids ∧ 400 < r.combined_score)).map
    (fun r => (r.ensembl_id_1, r.ensembl_id_2))

/-- The sql_get_ppi_2 query of analysis.py lines 111 to 119: pp_links
rows with the first endpoint among the resolved ids and score above
400. -/
def sql_get_ppi_2 (pp_links : List PPLink) (gene_ids : List String) : List (String × String) :=
  (pp_links.filter (fun r =>
      r.ensembl_id_1 ∈ gene_ids ∧ 400 < r.combined_score)).map
    (fun r => (r.ensembl_id_1, r.ensembl_id_2))

/-- Undirected graph in the style of nx.Graph: nodes in insertion order
without duplicates, and edges stored in first-seen orientation without
duplicates (an edge equal to a stored one up to swapping endpoints is
not stored again). -/
structure Graph where
  nodes : List String
  edges : List (String × String)
deriving DecidableEq, Repr

/-- Whether the graph has an edge between u and v, in either stored
orientation. -/
def Graph.hasEdge (g : Graph) (u v : String) : Prop :=
  (u, v) ∈ g.edges ∨ (v, u) ∈ g.edges

instance (g : Graph) (u v : String) : Decidable (g.hasEdge u v) :=
  inferInstanceAs (Decidable (_ ∨ _))

/-- nx.Graph add_edge: both endpoints become nodes, and the edge is
added unless present (in either orientation). -/
def Graph.addEdge (g : Graph) (u v : String) : Graph :=
  { nodes := addToSet (addToSet g.nodes u) v,
    edges := if g.hasEdge u v then g.edges else g.edges ++ [(u, v)] }

/-- nx.Graph add_edges_from on a list of endpoint pairs. -/
def Graph.addEdgesFrom (g : Graph) (l : List (String × String)) : Graph :=
  l.foldl (fun g p => g.addEdge p.1 p.2) g

/-- The empty nx.Graph. -/
def Graph.empty : Graph := ⟨[], []⟩

/-- number_of_nodes of a graph. -/
def Graph.number_of_nodes (g : Graph) : Nat := g.nodes.length

/-- number_of_edges of a graph. -/
def Graph.number_of_edges (g : Graph) : Nat := g.edges.length

/-- The direct network nw0 of analysis.py lines 122 to 124: an empty
graph extended with the edges returned by sql_get_ppi_1. -/
def nw0 (pp_links : List PPLink) (gene_ids : List String) : Graph :=
  Graph.empty.addEdgesFrom (sql_get_ppi_1 pp_links gene_ids)

/-- The expanded network nw1 of analysis.py lines 126 to 128: an empty
graph extended with the edges returned by sql_get_ppi_2. -/
def nw1 (pp_links : List PPLink) (gene_ids : List String) : Graph :=
  Graph.empty.addEdgesFrom (sql_get_ppi_2 pp_links gene_ids)

/-! ## src/analysis.py : metrics engine and export -/

/-- Result of one metric: the average-degree lambda yields a number,
the four node centralities a node-to-value mapping, and edge betweenness
an edge-to-value mapping.  Mappings are association lists in the
iteration order of the underlying dictionary. -/
inductive MetricResult where
  | scalar (v : ℚ)
  | perNode (data : List (String × ℚ))
  | perEdge (data : List ((String × String) × ℚ))
deriving DecidableEq, Repr

/-- The average_network_degree lambda of analysis.py line 17:
number_of_edges divided by number_of_nodes; on a graph with zero nodes
Python raises ZeroDivisionError. -/
def average_network_degree (net : Graph) : Except String ℚ :=
  if net.number_of_nodes = 0 then .error "ZeroDivisionError"
  else .ok ((net.number_of_edges : ℚ) / (net.number_of_nodes : ℚ))

/-- Degree of a node: each incident edge contributes per endpoint equal
to the node, so a self-loop counts twice, as in networkx. -/
def Graph.degree (g : Graph) (v : String) : Nat :=
  (g.edges.map (fun e =>
    (if e.1 = v then 1 else 0) + (if e.2 = v then 1 else 0))).sum

/-- Modelled from the spec: nx.degree_centrality, an external library
primitive the spec lists as a per-node scalar with value 1.0 for each
node of a two-node one-edge graph; networkx documents it as the degree
divided by n - 1, with every node mapped to 1 on graphs of at most one
node.  It never raises. -/
def degree_centrality (g : Graph) : Except String (List (String × ℚ)) :=
  if g.number_of_nodes ≤ 1 then .ok (g.nodes.map (fun v => (v, 1)))
  else .ok (g.nodes.map (fun v => (v, (g.degree v : ℚ) / ((g.number_of_nodes : ℚ) - 1))))

/-- The four remaining centrality computations are consumed as opaque
library primitives (the spec places their internals out of scope); each
may fail, for example when an iteration does not converge. -/
structure CentralityLib where
  eigenvector_centrality : Graph → Except String (List (String × ℚ))
  betweenness_centrality : Graph → Except String (List (String × ℚ))
  closeness_centrality : Graph → Except String (List (String × ℚ))
  edge_betweenness_centrality : Graph → Except String (List ((String × String) × ℚ))

/-- calculate_network_properties of analysis.py lines 14 to 28: the six
metrics are computed in the fixed order of the properties_mappings
dictionary; the first raised error aborts the whole computation, so no
partial result dictionary is ever returned. -/
def calculate_network_properties (lib : CentralityLib) (network : Graph) :
    Except String (List (String × MetricResult)) := do
  let avg ← average_network_degree network
  let dc ← degree_centrality network
  let ec ← lib.eigenvector_centrality network
  let bc ← lib.betweenness_centrality network
  let cc ← lib.closeness_centrality network
  let ebc ← lib.edge_betweenness_centrality network
  .ok [("average_network_degree", .scalar avg),
       ("degree_centrality", .perNode dc),
       ("eigenvector_centrality", .perNode ec),
       ("betweenness_centrality", .perNode bc),
       ("closeness_centrality", .perNode cc),
       ("edge_betweenness_centrality", .perEdge ebc)]

/-- One line of an exported metric file: the scalar metric writes its
value alone, per-node metrics write node and value, per-edge metrics
write both endpoints and value. -/
inductive ExportLine where
  | scalar (v : ℚ)
  | node (n : String) (v : ℚ)
  | edge (a b : String) (v : ℚ)
deriving DecidableEq, Repr

/-- Value carried by an export line. -/
def ExportLine.value : ExportLine → ℚ
  | .scalar v => v
  | .node _ v => v
  | .edge _ _ v => v

/-- Python sorted with key the value and reverse true: a stable sort
into descending value order. -/
def sortValDesc {α : Type} (l : List (α × ℚ)) : List (α × ℚ) :=
  l.mergeSort (fun x y => decide (y.2 ≤ x.2))

/-- Export of one metric, analysis.py lines 31 to 52: a dictionary is
sorted by value in descending order and written one entry per line, a
string key as a node line and a pair key as an edge line; a bare number
is written alone. -/
def export_metric : MetricResult → List ExportLine
  | .scalar v => [.scalar v]
  | .perNode data => (sortValDesc data).map (fun kv => .node kv.1 kv.2)
  | .perEdge data => (sortValDesc data).map (fun kv => .edge kv.1.1 kv.1.2 kv.2)

/-! ## Claim C3 : header classification -/

/-- C3: for every header line, after stripping the comment marker and
tokenizing on whitespace, a token set containing protein1, protein2 and
combined_score classifies as the interaction schema (ok true); failing
that, a token set containing string_protein_id, alias and source
classifies as the alias schema (ok false); any other header raises the
parse error.  Order of tokens is irrelevant and extra tokens are
permitted, since only membership of the required tokens is consulted. -/
theorem C3_classifier_contract (header : String) :
    (contains_ppi_links header = .ok true ↔
      ∀ t ∈ pp_links_header, t ∈ headerTokens header) ∧
    (contains_ppi_links header = .ok false ↔
      ((¬ ∀ t ∈ pp_links_header, t ∈ headerTokens header) ∧
        ∀ t ∈ p_aliases_header, t ∈ headerTokens header)) ∧
    (contains_ppi_links header = .error "Parse error: unexpected file header." ↔
      ((¬ ∀ t ∈ pp_links_header, t ∈ headerTokens header) ∧
        ¬ ∀ t ∈ p_aliases_header, t ∈ headerTokens header)) := by
  unfold contains_ppi_links
  split_ifs with h1 h2 <;>
    simp only [List.all_eq_true, decide_eq_true_eq] at h1 ⊢ <;>
    refine ⟨?_, ?_, ?_⟩ <;> simp_all

/-- Witness for C3: a well-formed interaction header with an extra token
and shuffled order classifies as the interaction schema. -/
theorem C3_classifier_contract_witness :
    contains_ppi_links "## combined_score extra protein2 protein1\n" = .ok true :=
  (C3_classifier_contract "## combined_score extra protein2 protein1\n").1.mpr (by decide)

/-! ## Claim C1 : interaction line loading -/

/-- C1 counterexample: loading the single interaction-schema line
9606.P1 9606.P2 a b c d e f g 550 x (identifier columns, nine further
columns with the integer 550 at index 9) yields the interaction row
(P1, P2, 550) but only the protein row (P1, 9606): the second identifier
column does not contribute to the accumulated protein set, because the
loop only adds records[0] to it (string_db.py line 94), so no row
(P2, 9606) exists, contradicting the claim. -/
theorem C1_counterexample :
    importLinks ["9606.P1 9606.P2 a b c d e f g 550 x"] =
      .ok ([⟨"P1", "P2", 550⟩], [⟨"P1", "9606"⟩]) ∧
    (⟨"P2", "9606"⟩ : ProteinRow) ∉ [(⟨"P1", "9606"⟩ : ProteinRow)] := by
  exact ⟨by decide, by decide⟩

/-- C1 amended: for every interaction-schema line with two
species-prefixed identifier columns and nine further columns whose
column of index 9 converts to the integer S, loading a file of that line
inserts exactly one interaction row (P1, P2, S), and exactly the protein
row (P1, sp) is created: only the first identifier column contributes to
the accumulated deduplicated protein set, so the second endpoint obtains
a protein row only when it also occurs somewhere as a first column. -/
theorem C1_amended_roundtrip
    (line a0 a1 sp1 sp2 p1 p2 c2 c3 c4 c5 c6 c7 c8 s9 c10 : String) (S : Int)
    (hsplit : pySplitStr ' ' line = [a0, a1, c2, c3, c4, c5, c6, c7, c8, s9, c10])
    (h0 : splitDotPair a0 = .ok (sp1, p1))
    (h1 : splitDotPair a1 = .ok (sp2, p2))
    (hS : pyInt s9 = .ok S) :
    importLinks [line] = .ok ([⟨p1, p2, S⟩], [⟨p1, sp1⟩]) := by
  simp [importLinks, foldlExcept, mapExcept, loadLinkLine, hsplit, h0, h1, hS,
    getIdx, addToSet]

/-- Witness for C1 amended: the schema line of the counterexample. -/
theorem C1_amended_roundtrip_witness :
    importLinks ["9606.P1 9606.P2 a b c d e f g 550 x"] =
      .ok ([⟨"P1", "P2", 550⟩], [⟨"P1", "9606"⟩]) :=
  C1_amended_roundtrip "9606.P1 9606.P2 a b c d e f g 550 x"
    "9606.P1" "9606.P2" "9606" "9606" "P1" "P2" "a" "b" "c" "d" "e" "f" "g" "550" "x" 550
    (by decide) (by decide) (by decide) (by decide)

/-! ## Claim C2 : alias line loading -/

/-- C2 counterexample: loading the newline-terminated alias line
9606.P1 TAB alphaSymbol TAB sourceX yields an alias row whose sources
field is sourceX followed by the newline: re.split on tab runs does not
strip the line terminator (string_db.py line 116), so the stored field
differs from the claimed bare sourceX. -/
theorem C2_counterexample :
    importAliases ["9606.P1\talphaSymbol\tsourceX\n"] =
      .ok [⟨"P1", "alphaSymbol", "sourceX\n"⟩] ∧
    ("sourceX\n" : String) ≠ "sourceX" := by
  exact ⟨by decide, by decide⟩

/-- C2 amended: for every alias-schema line splitting into exactly three
tab-run-delimited fields, the first a species-prefixed identifier,
loading inserts exactly one alias row whose fields are the identifier
part and the second and third fields exactly as delimited — in
particular, for a newline-terminated line the sources field ends with
the line terminator, since nothing strips it. -/
theorem C2_amended_roundtrip (line c0 c1 c2 sp p1 : String)
    (hsplit : reSplitTabs line = [c0, c1, c2])
    (h0 : splitDotPair c0 = .ok (sp, p1)) :
    importAliases [line] = .ok [⟨p1, c1, c2⟩] := by
  simp [importAliases, mapExcept, loadAliasLine, hsplit, h0, getIdx]

/-- Witness for C2 amended: the alias line of the counterexample, whose
third field carries the newline. -/
theorem C2_amended_roundtrip_witness :
    importAliases ["9606.P1\talphaSymbol\tsourceX\n"] =
      .ok [⟨"P1", "alphaSymbol", "sourceX\n"⟩] :=
  C2_amended_roundtrip "9606.P1\talphaSymbol\tsourceX\n"
    "9606.P1" "alphaSymbol" "sourceX\n" "9606" "P1" (by decide) (by decide)

/-! ## Claim C8 : gene resolution -/

/-- C8: gene resolution first whitespace-trims every input symbol and
returns, in table order, the identifier of every alias row whose alias
equals some trimmed input; unmatched symbols contribute nothing.  In the
spec example, the two inputs Pten-with-spaces and Pten both trim to the
alias of the row (ID1, Pten, src), and the output is the single ID1:
no count or identity correspondence with the input list is kept. -/
theorem C8_gene_resolution :
    (∀ (p_aliases : List AliasRow) (genes : List String) (x : String),
      x ∈ resolve_gene_ids p_aliases genes ↔
        ∃ r ∈ p_aliases, r.aliasName ∈ strip_genes genes ∧ x = r.ensembl_id) ∧
    resolve_gene_ids [⟨"ID1", "Pten", "src"⟩] [" Pten ", "Pten"] = ["ID1"] ∧
    (∀ g ∈ ([" Pten ", "Pten"] : List String), (⟨pyStrip g⟩ : String) = "Pten") := by
  refine ⟨?_, by decide, by decide⟩
  intro p_aliases genes x
  simp only [resolve_gene_ids, sql_get_ids, List.mem_map, List.mem_filter,
    decide_eq_true_eq]
  constructor
  · rintro ⟨r, ⟨hr, hal⟩, hx⟩
    exact ⟨r, hr, hal, hx.symm⟩
  · rintro ⟨r, hr, hal, hx⟩
    exact ⟨r, ⟨hr, hal⟩, hx.symm⟩

/-- Witness for C8: in the spec example, ID1 is among the resolved
identifiers. -/
theorem C8_gene_resolution_witness :
    "ID1" ∈ resolve_gene_ids [⟨"ID1", "Pten", "src"⟩] [" Pten ", "Pten"] :=
  (C8_gene_resolution.1 [⟨"ID1", "Pten", "src"⟩] [" Pten ", "Pten"] "ID1").mpr
    ⟨⟨"ID1", "Pten", "src"⟩, by decide, by decide, rfl⟩

/-! ## Claim C9 : filenames, URLs and the fetch condition -/

/-- splitPred never returns the empty list. -/
theorem splitPred_ne_nil (p : Char → Bool) (l : List Char) : splitPred p l ≠ [] := by
  cases l with
  | nil => simp [splitPred]
  | cons c rest =>
    simp only [splitPred]
    split
    · simp
    · cases h : splitPred p rest <;> simp

/-- Splitting a list that starts with a separator-free chunk followed by
a separator peels off exactly that chunk. -/
theorem splitPred_append_cons (p : Char → Bool) (xs ys : List Char)
    (hxs : ∀ c ∈ xs, p c = false) (c : Char) (hc : p c = true) :
    splitPred p (xs ++ c :: ys) = xs :: splitPred p ys := by
  induction xs with
  | nil => simp [splitPred, hc]
  | cons a as ih =>
    have ha : p a = false := hxs a (by simp)
    have ih2 := ih (fun d hd => hxs d (by simp [hd]))
    simp only [List.cons_append, splitPred, ha, Bool.false_eq_true, if_false,
      List.append_eq, ih2]

/-- A dot-free prefix joined with a dot splits off as the first
component. -/
theorem pySplitStr_dot_prefixed (c b : String) (hc : ∀ ch ∈ c.data, ch ≠ '.') :
    pySplitStr '.' (c ++ "." ++ b) = c :: pySplitStr '.' b := by
  unfold pySplitStr splitSep
  have hdata : (c ++ "." ++ b).data = c.data ++ '.' :: b.data := by
    simp [String.data_append]
  rw [hdata, splitPred_append_cons _ _ _ (by simpa using hc) '.' (by simp)]
  simp

/-- C9: per species code, in order, exactly the two filenames
code.protein.links.detailed.v11.0.txt.gz and
code.protein.aliases.v11.0.txt.gz are computed (the bare base patterns,
with no leading dot, when the code list is empty); for a filename with a
numeric first dot-component the URL inserts the un-prefixed filename
minus its last two dot-components as a sub-path between the base URL and
the filename, for any other filename the filename is appended directly;
and the fetch step downloads exactly when the destination is absent. -/
theorem C9_filenames_and_urls :
    txtgz_fns [] = base_fns ∧
    (∀ ids : List String, ids ≠ [] → (∀ c ∈ ids, c ≠ "") →
      txtgz_fns ids = ids.flatMap (fun c =>
        [c ++ "." ++ "protein.links.detailed.v11.0.txt.gz",
         c ++ "." ++ "protein.aliases.v11.0.txt.gz"])) ∧
    (∀ c b : String, (∀ ch ∈ c.data, ch ≠ '.') → is_str_number c = true →
      download_url (c ++ "." ++ b) =
        base_url ++ intercalateDot ((pySplitStr '.' b).dropLast.dropLast) ++ "/" ++
          (c ++ "." ++ b)) ∧
    (∀ fn : String, is_str_number ((pySplitStr '.' fn).headD "") = false →
      download_url fn = base_url ++ fn) ∧
    (∀ (w : World) (fn : String),
      (fn ∈ w.dataFiles.map Prod.fst → fetchIfAbsent w fn = w) ∧
      (fn ∉ w.dataFiles.map Prod.fst →
        (fetchIfAbsent w fn).downloadLog = w.downloadLog ++ [download_url fn])) := by
  refine ⟨by decide, ?_, ?_, ?_, ?_⟩
  · intro ids hne hcs
    have key : ∀ (l : List String), (∀ c ∈ l, c ≠ "") → ∀ acc : List String,
        l.foldl (fun acc each => acc ++ base_fns.map (fun x => joinDotNonEmpty [each, x])) acc =
          acc ++ l.flatMap (fun c =>
            [c ++ "." ++ "protein.links.detailed.v11.0.txt.gz",
             c ++ "." ++ "protein.aliases.v11.0.txt.gz"]) := by
      intro l
      induction l with
      | nil => intro _ acc; simp
      | cons c cs ih =>
        intro hl acc
        have hc : c ≠ "" := hl c (by simp)
        have step : base_fns.map (fun x => joinDotNonEmpty [c, x]) =
            [c ++ "." ++ "protein.links.detailed.v11.0.txt.gz",
             c ++ "." ++ "protein.aliases.v11.0.txt.gz"] := by
          simp [base_fns, joinDotNonEmpty, intercalateDot, hc]
        simp only [List.foldl_cons, step, ih (fun d hd => hl d (by simp [hd]))]
        simp
    unfold txtgz_fns
    have : ids.isEmpty = false := by simpa [List.isEmpty_iff] using hne
    rw [this]
    simpa using key ids hcs []
  · intro c b hdot hnum
    unfold download_url
    rw [pySplitStr_dot_prefixed c b hdot]
    simp only [List.headD_cons, hnum, if_true, List.drop_succ_cons, List.drop_zero]
    apply String.ext
    simp [String.data_append]
  · intro fn hnum
    unfold download_url
    rw [hnum]
    simp
  · intro w fn
    constructor
    · intro h; unfold fetchIfAbsent; rw [if_pos h]
    · intro h; unfold fetchIfAbsent; rw [if_neg h]

/-- Witness for C9: the filename pair for the mouse species code 10090,
and its resolved URL. -/
theorem C9_filenames_and_urls_witness :
    txtgz_fns ["10090"] = ["10090"].flatMap (fun c =>
      [c ++ "." ++ "protein.links.detailed.v11.0.txt.gz",
       c ++ "." ++ "protein.aliases.v11.0.txt.gz"]) :=
  C9_filenames_and_urls.2.1 ["10090"] (by decide) (by decide)

/-! ## Claim C4 : builder no-op on an existing store -/

/-- Fetching never changes whether the store file exists. -/
theorem fetchIfAbsent_storeExists (w : World) (fn : String) :
    (fetchIfAbsent w fn).storeExists = w.storeExists := by
  unfold fetchIfAbsent; split <;> rfl

/-- A property preserved by every successful step of a fallible fold is
preserved by the whole fold. -/
theorem foldlExcept_preserve {σ α : Type} (P : σ → Prop) (f : σ → α → Except String σ)
    (hf : ∀ s a s2, f s a = .ok s2 → P s → P s2) :
    ∀ (l : List α) (s s2 : σ), foldlExcept f s l = .ok s2 → P s → P s2 := by
  intro l
  induction l with
  | nil =>
    intro s s2 h hp
    injection h with h
    exact h ▸ hp
  | cons a t ih =>
    intro s s2 h hp
    unfold foldlExcept at h
    cases hfa : f s a with
    | error e => rw [hfa] at h; exact absurd h (by simp)
    | ok s1 =>
      rw [hfa] at h
      simp only [except_bind_ok] at h
      exact ih s1 s2 h (hf s a s1 hfa hp)

/-- Importing never changes whether the store file exists. -/
theorem import_txtgz_storeExists (w : World) (ids : List String) (w2 : World)
    (h : import_txtgz w ids = .ok w2) : w2.storeExists = w.storeExists := by
  refine foldlExcept_preserve (fun s => s.storeExists = w.storeExists) _ ?_
    (txtgz_fns ids) w w2 h rfl
  intro s fn s2 hstep hs
  unfold importStep at hstep
  cases hfile : importFile (fetchIfAbsent s fn).store (lookupFile (fetchIfAbsent s fn) fn) with
  | error e => rw [hfile] at hstep; exact absurd hstep (by simp)
  | ok st =>
    rw [hfile] at hstep
    simp only [except_bind_ok] at hstep
    injection hstep with hstep
    rw [← hstep]
    simpa [fetchIfAbsent_storeExists] using hs

/-- C4: whenever the target store file already exists, the DB builder
returns its state unchanged for any species argument — no table
creation, no download, no insertion — and consequently a second build
after any successful build is a complete no-op. -/
theorem C4_builder_noop :
    (∀ (w : World) (ids : List String), w.storeExists = true →
      create_string_db w ids = .ok w) ∧
    (∀ (w w2 : World) (ids ids2 : List String),
      create_string_db w ids = .ok w2 → create_string_db w2 ids2 = .ok w2) := by
  have noop : ∀ (w : World) (ids : List String), w.storeExists = true →
      create_string_db w ids = .ok w := by
    intro w ids h
    unfold create_string_db
    rw [h]
    rfl
  refine ⟨noop, ?_⟩
  intro w w2 ids ids2 h
  have h2 : w2.storeExists = true := by
    unfold create_string_db at h
    by_cases hw : w.storeExists = true
    · rw [hw] at h
      injection h with h
      rw [← h]; exact hw
    · rw [Bool.not_eq_true] at hw
      rw [hw] at h
      simp only [Bool.false_eq_true, if_false] at h
      exact import_txtgz_storeExists _ _ _ h
  exact noop w2 ids2 h2

/-- Witness for C4: a world whose store file exists is returned
unchanged. -/
theorem C4_builder_noop_witness :
    create_string_db ⟨[], true, ⟨[], [], []⟩, fun _ => [], []⟩ ["10090"] =
      .ok ⟨[], true, ⟨[], [], []⟩, fun _ => [], []⟩ :=
  C4_builder_noop.1 ⟨[], true, ⟨[], [], []⟩, fun _ => [], []⟩ ["10090"] rfl

/-! ## Claims C5 and C10 : network construction -/

/-- Membership after a set insertion. -/
theorem mem_addToSet {α : Type} [DecidableEq α] (l : List α) (x y : α) :
    y ∈ addToSet l x ↔ y ∈ l ∨ y = x := by
  unfold addToSet
  by_cases h : x ∈ l
  · rw [if_pos h]
    constructor
    · exact Or.inl
    · rintro (hy | rfl)
      · exact hy
      · exact h
  · rw [if_neg h]
    simp

/-- Edges present after add_edge: the old edges and, in either
orientation, the new one. -/
theorem hasEdge_addEdge (g : Graph) (u v a b : String) :
    (g.addEdge u v).hasEdge a b ↔
      g.hasEdge a b ∨ ((u, v) = (a, b) ∨ (u, v) = (b, a)) := by
  unfold Graph.addEdge Graph.hasEdge
  by_cases h : (u, v) ∈ g.edges ∨ (v, u) ∈ g.edges
  · rw [if_pos h]
    constructor
    · exact Or.inl
    · rintro (hy | hne | hne)
      · exact hy
      · injection hne with h1 h2
        subst h1; subst h2
        exact h
      · injection hne with h1 h2
        subst h1; subst h2
        exact h.symm
  · rw [if_neg h]
    simp only [List.mem_append, List.mem_singleton]
    constructor
    · rintro ((hy | he) | (hy | he))
      · exact Or.inl (Or.inl hy)
      · exact Or.inr (Or.inl he.symm)
      · exact Or.inl (Or.inr hy)
      · exact Or.inr (Or.inr he.symm)
    · rintro ((hy | hy) | he | he)
      · exact Or.inl (Or.inl hy)
      · exact Or.inr (Or.inl hy)
      · exact Or.inl (Or.inr he.symm)
      · exact Or.inr (Or.inr he.symm)

/-- Nodes present after add_edge: the old nodes and both endpoints. -/
theorem mem_nodes_addEdge (g : Graph) (u v x : String) :
    x ∈ (g.addEdge u v).nodes ↔ x ∈ g.nodes ∨ x = u ∨ x = v := by
  unfold Graph.addEdge
  simp only [mem_addToSet]
  tauto

/-- Edges present after add_edges_from: the old edges and, in either
orientation, the listed pairs. -/
theorem hasEdge_addEdgesFrom (l : List (String × String)) (g : Graph) (a b : String) :
    (g.addEdgesFrom l).hasEdge a b ↔
      g.hasEdge a b ∨ ∃ p ∈ l, p = (a, b) ∨ p = (b, a) := by
  induction l generalizing g with
  | nil => simp [Graph.addEdgesFrom]
  | cons q t ih =>
    show ((g.addEdge q.1 q.2).addEdgesFrom t).hasEdge a b ↔ _
    rw [ih, hasEdge_addEdge]
    constructor
    · rintro ((hy | hq) | ⟨p, hp, hor⟩)
      · exact Or.inl hy
      · exact Or.inr ⟨q, by simp, by simpa using hq⟩
      · exact Or.inr ⟨p, by simp [hp], hor⟩
    · rintro (hy | ⟨p, hp, hor⟩)
      · exact Or.inl (Or.inl hy)
      · rcases List.mem_cons.mp hp with rfl | hpt
        · exact Or.inl (Or.inr (by simpa using hor))
        · exact Or.inr ⟨p, hpt, hor⟩

/-- Nodes present after add_edges_from: the old nodes and every listed
endpoint. -/
theorem mem_nodes_addEdgesFrom (l : List (String × String)) (g : Graph) (x : String) :
    x ∈ (g.addEdgesFrom l).nodes ↔ x ∈ g.nodes ∨ ∃ p ∈ l, x = p.1 ∨ x = p.2 := by
  induction l generalizing g with
  | nil => simp [Graph.addEdgesFrom]
  | cons q t ih =>
    show x ∈ ((g.addEdge q.1 q.2).addEdgesFrom t).nodes ↔ _
    rw [ih, mem_nodes_addEdge]
    constructor
    · rintro ((hy | hq) | ⟨p, hp, hor⟩)
      · exact Or.inl hy
      · exact Or.inr ⟨q, by simp, hq⟩
      · exact Or.inr ⟨p, by simp [hp], hor⟩
    · rintro (hy | ⟨p, hp, hor⟩)
      · exact Or.inl (Or.inl hy)
      · rcases List.mem_cons.mp hp with rfl | hpt
        · exact Or.inl (Or.inr hor)
        · exact Or.inr ⟨p, hpt, hor⟩

/-- Pairs returned by the direct query. -/
theorem mem_sql_get_ppi_1 (pp_links : List PPLink) (gene_ids : List String)
    (p : String × String) :
    p ∈ sql_get_ppi_1 pp_links gene_ids ↔
      ∃ r ∈ pp_links, r.ensembl_id_1 ∈ gene_ids ∧ r.ensembl_id_2 ∈ gene_ids ∧
        400 < r.combined_score ∧ p = (r.ensembl_id_1, r.ensembl_id_2) := by
  simp only [sql_get_ppi_1, List.mem_map, List.mem_filter, decide_eq_true_eq]
  constructor
  · rintro ⟨r, ⟨hr, h1, h2, h3⟩, rfl⟩
    exact ⟨r, hr, h1, h2, h3, rfl⟩
  · rintro ⟨r, hr, h1, h2, h3, rfl⟩
    exact ⟨r, ⟨hr, h1, h2, h3⟩, rfl⟩

/-- Pairs returned by the expanded query. -/
theorem mem_sql_get_ppi_2 (pp_links : List PPLink) (gene_ids : List String)
    (p : String × String) :
    p ∈ sql_get_ppi_2 pp_links gene_ids ↔
      ∃ r ∈ pp_links, r.ensembl_id_1 ∈ gene_ids ∧
        400 < r.combined_score ∧ p = (r.ensembl_id_1, r.ensembl_id_2) := by
  simp only [sql_get_ppi_2, List.mem_map, List.mem_filter, decide_eq_true_eq]
  constructor
  · rintro ⟨r, ⟨hr, h1, h3⟩, rfl⟩
    exact ⟨r, hr, h1, h3, rfl⟩
  · rintro ⟨r, hr, h1, h3, rfl⟩
    exact ⟨r, ⟨hr, h1, h3⟩, rfl⟩

/-- Edge characterization of the direct network nw0. -/
theorem nw0_hasEdge_iff (pp_links : List PPLink) (gene_ids : List String) (a b : String) :
    (nw0 pp_links gene_ids).hasEdge a b ↔
      ∃ r ∈ pp_links, r.ensembl_id_1 ∈ gene_ids ∧ r.ensembl_id_2 ∈ gene_ids ∧
        400 < r.combined_score ∧
        ((r.ensembl_id_1, r.ensembl_id_2) = (a, b) ∨
          (r.ensembl_id_1, r.ensembl_id_2) = (b, a)) := by
  unfold nw0
  rw [hasEdge_addEdgesFrom]
  simp only [Graph.hasEdge, Graph.empty, List.not_mem_nil, or_self, false_or]
  constructor
  · rintro ⟨p, hp, hor⟩
    rcases (mem_sql_get_ppi_1 _ _ _).mp hp with ⟨r, hr, h1, h2, h3, rfl⟩
    exact ⟨r, hr, h1, h2, h3, hor⟩
  · rintro ⟨r, hr, h1, h2, h3, hor⟩
    exact ⟨(r.ensembl_id_1, r.ensembl_id_2),
      (mem_sql_get_ppi_1 _ _ _).mpr ⟨r, hr, h1, h2, h3, rfl⟩, hor⟩

/-- Edge characterization of the expanded network nw1. -/
theorem nw1_hasEdge_iff (pp_links : List PPLink) (gene_ids : List String) (a b : String) :
    (nw1 pp_links gene_ids).hasEdge a b ↔
      ∃ r ∈ pp_links, r.ensembl_id_1 ∈ gene_ids ∧ 400 < r.combined_score ∧
        ((r.ensembl_id_1, r.ensembl_id_2) = (a, b) ∨
          (r.ensembl_id_1, r.ensembl_id_2) = (b, a)) := by
  unfold nw1
  rw [hasEdge_addEdgesFrom]
  simp only [Graph.hasEdge, Graph.empty, List.not_mem_nil, or_self, false_or]
  constructor
  · rintro ⟨p, hp, hor⟩
    rcases (mem_sql_get_ppi_2 _ _ _).mp hp with ⟨r, hr, h1, h3, rfl⟩
    exact ⟨r, hr, h1, h3, hor⟩
  · rintro ⟨r, hr, h1, h3, hor⟩
    exact ⟨(r.ensembl_id_1, r.ensembl_id_2),
      (mem_sql_get_ppi_2 _ _ _).mpr ⟨r, hr, h1, h3, rfl⟩, hor⟩

/-- C5: the direct network has an edge exactly for the interaction rows
with both endpoints in the resolved identifier set and score above 400;
the expanded network has an edge exactly for the rows whose first
endpoint is in the set with score above 400; and in the spec example, a
row (A, B, 450) with A and B in the set gives a direct edge, while a row
(A, D, 450) with D outside the set gives no direct edge but an expanded
edge, introducing the node D. -/
theorem C5_network_construction :
    (∀ (pp_links : List PPLink) (gene_ids : List String) (a b : String),
      (nw0 pp_links gene_ids).hasEdge a b ↔
        ∃ r ∈ pp_links, r.ensembl_id_1 ∈ gene_ids ∧ r.ensembl_id_2 ∈ gene_ids ∧
          400 < r.combined_score ∧
          ((r.ensembl_id_1, r.ensembl_id_2) = (a, b) ∨
            (r.ensembl_id_1, r.ensembl_id_2) = (b, a))) ∧
    (∀ (pp_links : List PPLink) (gene_ids : List String) (a b : String),
      (nw1 pp_links gene_ids).hasEdge a b ↔
        ∃ r ∈ pp_links, r.ensembl_id_1 ∈ gene_ids ∧ 400 < r.combined_score ∧
          ((r.ensembl_id_1, r.ensembl_id_2) = (a, b) ∨
            (r.ensembl_id_1, r.ensembl_id_2) = (b, a))) ∧
    (∀ (pp_links : List PPLink) (gene_ids : List String) (A B D : String),
      A ∈ gene_ids → B ∈ gene_ids → D ∉ gene_ids →
      (⟨A, B, 450⟩ : PPLink) ∈ pp_links → (⟨A, D, 450⟩ : PPLink) ∈ pp_links →
      (nw0 pp_links gene_ids).hasEdge A B ∧
        ¬ (nw0 pp_links gene_ids).hasEdge A D ∧
        (nw1 pp_links gene_ids).hasEdge A D ∧
        D ∈ (nw1 pp_links gene_ids).nodes) := by
  refine ⟨nw0_hasEdge_iff, nw1_hasEdge_iff, ?_⟩
  intro pp_links gene_ids A B D hA hB hD hAB hAD
  refine ⟨?_, ?_, ?_, ?_⟩
  · exact (nw0_hasEdge_iff _ _ _ _).mpr ⟨⟨A, B, 450⟩, hAB, hA, hB, by norm_num, Or.inl rfl⟩
  · intro hcontra
    rcases (nw0_hasEdge_iff _ _ _ _).mp hcontra with ⟨r, _, h1, h2, _, hor | hor⟩
    · injection hor with ha hb
      exact hD (hb ▸ h2)
    · injection hor with ha hb
      exact hD (ha ▸ h1)
  · exact (nw1_hasEdge_iff _ _ _ _).mpr ⟨⟨A, D, 450⟩, hAD, hA, by norm_num, Or.inl rfl⟩
  · unfold nw1
    rw [mem_nodes_addEdgesFrom]
    exact Or.inr ⟨(A, D),
      (mem_sql_get_ppi_2 _ _ _).mpr ⟨⟨A, D, 450⟩, hAD, hA, by norm_num, rfl⟩,
      Or.inr rfl⟩

/-- Witness for C5: a concrete two-row table over the identifier set
{A, B, C} exhibiting all four example facts. -/
theorem C5_network_construction_witness :
    (nw0 [⟨"A", "B", 450⟩, ⟨"A", "D", 450⟩] ["A", "B", "C"]).hasEdge "A" "B" ∧
      ¬ (nw0 [⟨"A", "B", 450⟩, ⟨"A", "D", 450⟩] ["A", "B", "C"]).hasEdge "A" "D" ∧
      (nw1 [⟨"A", "B", 450⟩, ⟨"A", "D", 450⟩] ["A", "B", "C"]).hasEdge "A" "D" ∧
      "D" ∈ (nw1 [⟨"A", "B", 450⟩, ⟨"A", "D", 450⟩] ["A", "B", "C"]).nodes :=
  C5_network_construction.2.2 [⟨"A", "B", 450⟩, ⟨"A", "D", 450⟩] ["A", "B", "C"]
    "A" "B" "D" (by decide) (by decide) (by decide) (by decide) (by decide)

/-- C10: every edge and every node of the direct network is present in
the expanded network, for any database state and identifier set: a row
with both endpoints in the set and score above the threshold in
particular has its first endpoint in the set. -/
theorem C10_direct_subgraph_of_expanded :
    ∀ (pp_links : List PPLink) (gene_ids : List String),
      (∀ a b : String, (nw0 pp_links gene_ids).hasEdge a b →
        (nw1 pp_links gene_ids).hasEdge a b) ∧
      (∀ x : String, x ∈ (nw0 pp_links gene_ids).nodes →
        x ∈ (nw1 pp_links gene_ids).nodes) := by
  intro pp_links gene_ids
  have hsub : ∀ p : String × String,
      p ∈ sql_get_ppi_1 pp_links gene_ids → p ∈ sql_get_ppi_2 pp_links gene_ids := by
    intro p hp
    rcases (mem_sql_get_ppi_1 _ _ _).mp hp with ⟨r, hr, h1, _, h3, rfl⟩
    exact (mem_sql_get_ppi_2 _ _ _).mpr ⟨r, hr, h1, h3, rfl⟩
  constructor
  · intro a b h
    rcases (nw0_hasEdge_iff pp_links gene_ids a b).mp h with
      ⟨r, hr, h1, _, h3, hor⟩
    exact (nw1_hasEdge_iff pp_links gene_ids a b).mpr ⟨r, hr, h1, h3, hor⟩
  · intro x h
    unfold nw0 at h
    unfold nw1
    rw [mem_nodes_addEdgesFrom] at h ⊢
    rcases h with h | ⟨p, hp, hor⟩
    · exact Or.inl h
    · exact Or.inr ⟨p, hsub p hp, hor⟩

/-- Witness for C10: the direct edge of the C5 example is also an edge
of the expanded network, and its endpoints are expanded-network nodes. -/
theorem C10_direct_subgraph_of_expanded_witness :
    (nw1 [⟨"A", "B", 450⟩, ⟨"A", "D", 450⟩] ["A", "B", "C"]).hasEdge "A" "B" ∧
      "B" ∈ (nw1 [⟨"A", "B", 450⟩, ⟨"A", "D", 450⟩] ["A", "B", "C"]).nodes :=
  ⟨(C10_direct_subgraph_of_expanded [⟨"A", "B", 450⟩, ⟨"A", "D", 450⟩]
      ["A", "B", "C"]).1 "A" "B" (by decide),
    (C10_direct_subgraph_of_expanded [⟨"A", "B", 450⟩, ⟨"A", "D", 450⟩]
      ["A", "B", "C"]).2 "B" (by decide)⟩

/-! ## Claim C6 : metric errors propagate -/

/-- C6: on a zero-node graph the metrics engine fails with the
division-by-zero signal of the average-degree metric (the first metric
computed); a successful result presupposes that every fallible metric
succeeded, so no partial result is ever returned; and an error raised by
a centrality primitive (shown for eigenvector centrality, the first
fallible library call) propagates to the caller unchanged. -/
theorem C6_error_propagation :
    (∀ (lib : CentralityLib) (g : Graph), g.number_of_nodes = 0 →
      calculate_network_properties lib g = .error "ZeroDivisionError") ∧
    (∀ (lib : CentralityLib) (g : Graph) (res : List (String × MetricResult)),
      calculate_network_properties lib g = .ok res →
      (average_network_degree g).isOk = true ∧
      (lib.eigenvector_centrality g).isOk = true ∧
      (lib.betweenness_centrality g).isOk = true ∧
      (lib.closeness_centrality g).isOk = true ∧
      (lib.edge_betweenness_centrality g).isOk = true) ∧
    (∀ (lib : CentralityLib) (g : Graph) (e : String),
      g.number_of_nodes ≠ 0 → lib.eigenvector_centrality g = .error e →
      calculate_network_properties lib g = .error e) := by
  have hdc : ∀ g : Graph, ∃ l, degree_centrality g = .ok l := by
    intro g
    unfold degree_centrality
    split <;> exact ⟨_, rfl⟩
  refine ⟨?_, ?_, ?_⟩
  · intro lib g h
    unfold calculate_network_properties average_network_degree
    rw [if_pos h]
    rfl
  · intro lib g res h
    unfold calculate_network_properties at h
    cases h1 : average_network_degree g with
    | error e => rw [h1] at h; simp at h
    | ok v =>
      rw [h1] at h
      simp only [except_bind_ok] at h
      obtain ⟨dl, h2⟩ := hdc g
      rw [h2] at h
      simp only [except_bind_ok] at h
      cases h3 : lib.eigenvector_centrality g with
      | error e => rw [h3] at h; simp at h
      | ok ec =>
        rw [h3] at h
        simp only [except_bind_ok] at h
        cases h4 : lib.betweenness_centrality g with
        | error e => rw [h4] at h; simp at h
        | ok bc =>
          rw [h4] at h
          simp only [except_bind_ok] at h
          cases h5 : lib.closeness_centrality g with
          | error e => rw [h5] at h; simp at h
          | ok cc =>
            rw [h5] at h
            simp only [except_bind_ok] at h
            cases h6 : lib.edge_betweenness_centrality g with
            | error e => rw [h6] at h; simp at h
            | ok ebc => simp [h1, h3, h4, h5, h6, Except.isOk, Except.toBool]
  · intro lib g e hn he
    unfold calculate_network_properties
    have h1 : average_network_degree g =
        .ok ((g.number_of_edges : ℚ) / (g.number_of_nodes : ℚ)) := by
      unfold average_network_degree
      rw [if_neg hn]
    rw [h1]
    simp only [except_bind_ok]
    obtain ⟨dl, h2⟩ := hdc g
    rw [h2]
    simp only [except_bind_ok]
    rw [he]
    rfl

/-- Witness for C6: on the empty graph, with centrality primitives that
always succeed, the engine still fails with the division-by-zero
signal. -/
theorem C6_error_propagation_witness :
    calculate_network_properties
      ⟨fun _ => .ok [], fun _ => .ok [], fun _ => .ok [], fun _ => .ok []⟩
      Graph.empty = .error "ZeroDivisionError" :=
  C6_error_propagation.1
    ⟨fun _ => .ok [], fun _ => .ok [], fun _ => .ok [], fun _ => .ok []⟩
    Graph.empty rfl

/-! ## Claim C7 : metric export -/

/-- C7: per-metric export emits, for a per-node mapping, exactly one
node line per entry and, for a per-edge mapping, exactly one edge line
per entry, in each case sorted by value in descending order, while the
scalar average-degree metric emits its single value alone; and in the
spec example graph with nodes A, B and the one edge (A, B), the average
degree is 1/2 = 0.5, the degree centrality of both nodes is 1, and the
export of the average degree is the single line 0.5. -/
theorem C7_export_contract :
    (∀ v : ℚ, export_metric (.scalar v) = [.scalar v]) ∧
    (∀ data : List (String × ℚ),
      (export_metric (.perNode data)).Pairwise
        (fun x y => ExportLine.value y ≤ ExportLine.value x) ∧
      (export_metric (.perNode data)).Perm
        (data.map (fun kv => ExportLine.node kv.1 kv.2))) ∧
    (∀ data : List ((String × String) × ℚ),
      (export_metric (.perEdge data)).Pairwise
        (fun x y => ExportLine.value y ≤ ExportLine.value x) ∧
      (export_metric (.perEdge data)).Perm
        (data.map (fun kv => ExportLine.edge kv.1.1 kv.1.2 kv.2))) ∧
    (average_network_degree (Graph.empty.addEdgesFrom [("A", "B")]) = .ok (1/2) ∧
      (1 : ℚ)/2 = 0.5 ∧
      degree_centrality (Graph.empty.addEdgesFrom [("A", "B")]) =
        .ok [("A", 1), ("B", 1)] ∧
      export_metric (.scalar (1/2)) = [.scalar (1/2)]) := by
  have htrans : ∀ {α : Type} (a b c : α × ℚ),
      (decide (b.2 ≤ a.2)) = true → (decide (c.2 ≤ b.2)) = true →
      (decide (c.2 ≤ a.2)) = true := by
    intro α a b c hab hbc
    simp only [decide_eq_true_eq] at *
    exact le_trans hbc hab
  have htotal : ∀ {α : Type} (a b : α × ℚ),
      ((decide (b.2 ≤ a.2)) || (decide (a.2 ≤ b.2))) = true := by
    intro α a b
    simpa using le_total b.2 a.2
  have hsorted : ∀ {α : Type} (data : List (α × ℚ)),
      (sortValDesc data).Pairwise (fun a b => b.2 ≤ a.2) := by
    intro α data
    have := @List.sorted_mergeSort (α × ℚ) (fun x y => decide (y.2 ≤ x.2))
      (fun a b c => htrans a b c) (fun a b => htotal a b) data
    exact this.imp (fun h => by simpa using h)
  refine ⟨fun v => rfl, ?_, ?_, ?_⟩
  · intro data
    constructor
    · show ((sortValDesc data).map (fun kv => ExportLine.node kv.1 kv.2)).Pairwise _
      exact List.pairwise_map.mpr ((hsorted data).imp (fun h => by simpa using h))
    · show ((sortValDesc data).map (fun kv => ExportLine.node kv.1 kv.2)).Perm _
      exact (List.mergeSort_perm data _).map _
  · intro data
    constructor
    · show ((sortValDesc data).map (fun kv => ExportLine.edge kv.1.1 kv.1.2 kv.2)).Pairwise _
      exact List.pairwise_map.mpr ((hsorted data).imp (fun h => by simpa using h))
    · show ((sortValDesc data).map (fun kv => ExportLine.edge kv.1.1 kv.1.2 kv.2)).Perm _
      exact (List.mergeSort_perm data _).map _
  · have hg : Graph.empty.addEdgesFrom [("A", "B")] =
        ⟨["A", "B"], [("A", "B")]⟩ := by decide
    refine ⟨?_, by norm_num, ?_, rfl⟩
    · rw [hg]
      unfold average_network_degree Graph.number_of_nodes Graph.number_of_edges
      norm_num
    · rw [hg]
      unfold degree_centrality Graph.number_of_nodes
      norm_num [Graph.degree]
      decide

/-- Witness for C7: the exported average-degree listing of the example
graph is the single value one half. -/
theorem C7_export_contract_witness :
    export_metric (.scalar (1/2)) = [.scalar (1/2)] :=
  C7_export_contract.1 (1/2)

end NetworkAnalysis
